import Mathlib

/-!
Verification development for the Arduino-MCP repository.

This file gives a shallow embedding of the two source files:

* `arduino_mcp_server.py` — the reactive automation core: the telemetry
  record `arduino_state`, the pending-rule list `pending_actions`, the
  ingestion/dispatch logic of `monitor_arduino_status`, the action
  executor `execute_action`, the registration tools `when_timer_finishes`,
  `when_time_equals`, `when_distance_less_than`, the command tools
  (`lcd_write_line1`, `lcd_write_line2`, `lcd_display_message`,
  `display_timer`, `buzzer_beep`, `show_live_ultrasonic_on_lcd`) and
  `clear_all_pending_actions`.

* `master_control.py` — the cooperative display routines
  (`display_clock`, `display_countdown`) and the `process_command`
  handlers that start and stop them, modelled as an interleaving machine
  whose atomic steps are the synchronous blocks between `await` points
  of the asyncio tasks.

Python distances (floats) are modelled as rationals; Python strings as
Lean strings with character-level slicing and splitting helpers that
mirror Python `str` slicing, `split`, and `startswith`.
-/

/-! ### String helpers mirroring Python string primitives -/

/-- Python `s[:n]` on strings: take the first `n` characters. -/
def strTake (s : String) (n : Nat) : String := String.mk (s.data.take n)

/-- Python `s[n:]` on strings: drop the first `n` characters. -/
def strDrop (s : String) (n : Nat) : String := String.mk (s.data.drop n)

/-- Python `s.startswith(p)`. -/
def strStartsWith (s p : String) : Bool := p.data.isPrefixOf s.data

/-- Split a character list at every occurrence of `c` (Python `split` with a
one-character separator; yields the empty piece for adjacent separators and
a single piece for the empty input, exactly as Python does). -/
def splitOnChar : List Char → Char → List (List Char)
  | [], _ => [[]]
  | a :: rest, c =>
    let r := splitOnChar rest c
    if a = c then [] :: r
    else
      match r with
      | [] => [[a]]
      | h :: tl => (a :: h) :: tl

/-- Python `s.split(c)` for a one-character separator. -/
def strSplitOn (s : String) (c : Char) : List String :=
  (splitOnChar s.data c).map String.mk

/-- Digits-only parse of a character list; `none` on empty or non-digit input. -/
def digitsToNat? : List Char → Option Nat
  | [] => none
  | l =>
    if l.all (fun c => c.isDigit) then
      some (l.foldl (fun a c => a * 10 + (c.toNat - 48)) 0)
    else none

/-- Python `int(s)` on the plain decimal literals this program ever passes to
it: an optional sign followed by digits.  `none` models the `ValueError`
raised on anything else (the source only ever feeds it tool arguments and
device payloads of this shape). -/
def pyToInt? (s : String) : Option Int :=
  match s.data with
  | '-' :: rest => (digitsToNat? rest).map (fun n => -(n : Int))
  | '+' :: rest => (digitsToNat? rest).map (fun n => (n : Int))
  | l => (digitsToNat? l).map (fun n => (n : Int))

/-- Two-digit zero padding, Python `f"{n:02d}"` for `0 ≤ n ≤ 99`. -/
def pad2 (n : Nat) : String := if n < 10 then "0" ++ toString n else toString n

/-- Python `float(s)` on the plain decimal literals emitted by the device
(`DISTANCE:<float>` payloads such as `15.32`): integer part, optional
fractional part.  `none` models the `ValueError` on anything else. -/
def pyToRat? (s : String) : Option ℚ :=
  match strSplitOn s '.' with
  | [w] => (pyToInt? w).map (fun n => (n : ℚ))
  | [w, f] =>
    match pyToInt? w, digitsToNat? f.data with
    | some i, some fr =>
      let q : ℚ := (fr : ℚ) / ((10 : ℚ) ^ f.length)
      some (if strStartsWith w "-" then (i : ℚ) - q else (i : ℚ) + q)
    | _, _ => none
  | _ => none

/-! ### Data model of the rule engine (`arduino_mcp_server.py`)

A pending action in the source is a Python dict with keys `trigger`,
`action_type`, `params` and, depending on the trigger, `target_time` or
`target_distance`.  `params` is a dict whose possible keys are fixed by the
registration code. -/

/-- The `params` dict of a pending action.  Absent keys are `none`; the
`.get(key, default)` reads of the source become `Option.getD`. -/
structure Params where
  duration : Option Int := none
  minutes : Option Int := none
  seconds : Option Int := none
  interval : Option Int := none
  line1 : Option String := none
  line2 : Option String := none
  command : Option String := none
deriving DecidableEq

/-- The `trigger` tag of a pending action, together with the trigger-specific
payload key of the dict (`target_time` for `time_equals`, `target_distance`
for `distance_less_than`). -/
inductive Trigger where
  | timer_zero
  | time_equals (target_time : String)
  | distance_less_than (target_distance : ℚ)
  | distance_update
deriving DecidableEq

/-- One entry of the `pending_actions` list. -/
structure PendingAction where
  trigger : Trigger
  action_type : String
  params : Params
deriving DecidableEq

/-- The global `arduino_state` dict (telemetry).  `last_update` timestamps
are threaded in as an explicit parameter in place of `time.time()`. -/
structure ArduinoState where
  timer_remaining : Int
  timer_active : Bool
  clock_time : Option String
  distance : ℚ
  last_update : Int
deriving DecidableEq

/-- The initial `arduino_state` literal from the source (module load time
modelled as timestamp 0). -/
def arduinoState0 : ArduinoState :=
  { timer_remaining := 0, timer_active := false, clock_time := none,
    distance := 0, last_update := 0 }

/-- `execute_action`: dispatch on the string-valued `action_type` and produce
the serial command(s) sent; an unrecognized `action_type` falls through every
branch and sends nothing. -/
def execute_action (a : PendingAction) : List String :=
  if a.action_type = "buzzer_beep" then
    ["BUZZER:BEEP:" ++ toString (a.params.duration.getD 1000)]
  else if a.action_type = "start_timer" then
    let minutes := a.params.minutes.getD 0
    let seconds := a.params.seconds.getD 0
    ["TM1637:COUNTDOWN:" ++ toString (minutes * 60 + seconds)]
  else if a.action_type = "led_blink" then
    ["LED:BLINK:" ++ toString (a.params.interval.getD 1000)]
  else if a.action_type = "display_message" then
    ["LCD:LINE1:" ++ a.params.line1.getD "", "LCD:LINE2:" ++ a.params.line2.getD ""]
  else if a.action_type = "custom_command" then
    [a.params.command.getD ""]
  else []

/-! ### Events and the monitor loop body -/

/-- The typed event a status line classifies into; `dropped` covers both
unrecognized prefixes and payloads whose numeric parse raises (the raise is
caught by the monitor loop before any state mutation). -/
inductive Event where
  | timerRemaining (seconds : Int)
  | timerFinished
  | clockReport (value : String)
  | distanceReport (cm : ℚ)
  | dropped
deriving DecidableEq

/-- The prefix classification of `monitor_arduino_status`, in source order:
`TIMER:REMAINING:` (payload `line.split(k)[2]` where `k` is the colon),
`COUNTDOWN:FINISHED`, `CLOCK:LCD:` (payload `line.split(k, 2)[2]`, i.e. the
text after the second colon), `DISTANCE:` (payload `line.split(k)[1]`). -/
def parseLine (line : String) : Event :=
  if strStartsWith line "TIMER:REMAINING:" then
    match pyToInt? ((strSplitOn (strDrop line 16) ':').headD "") with
    | some n => Event.timerRemaining n
    | none => Event.dropped
  else if strStartsWith line "COUNTDOWN:FINISHED" then Event.timerFinished
  else if strStartsWith line "CLOCK:LCD:" then Event.clockReport (strDrop line 10)
  else if strStartsWith line "DISTANCE:" then
    match pyToRat? ((strSplitOn (strDrop line 9) ':').headD "") with
    | some d => Event.distanceReport d
    | none => Event.dropped
  else Event.dropped

/-- Match predicate of the `timer_zero` firing loop (the source compares the
`trigger` tag with `==`). -/
def matchTimerZero (a : PendingAction) : Bool :=
  decide (a.trigger = Trigger.timer_zero)

/-- Match predicate of the `time_equals` firing loop: exact string equality
of the reported clock value against `target_time`. -/
def matchClock (s : String) (a : PendingAction) : Bool :=
  match a.trigger with
  | Trigger.time_equals tg => decide (s = tg)
  | _ => false

/-- Match predicate of the `distance_less_than` firing loop: strict `<`
against `target_distance`. -/
def matchDistance (d : ℚ) (a : PendingAction) : Bool :=
  match a.trigger with
  | Trigger.distance_less_than t => decide (d < t)
  | _ => false

/-- Match predicate of the continuous `distance_update` echo loop. -/
def matchDistanceUpdate (a : PendingAction) : Bool :=
  decide (a.trigger = Trigger.distance_update)

/-- Python `list.remove(a)`: delete the first element equal to `a`. -/
def eraseFirst (a : PendingAction) : List PendingAction → List PendingAction
  | [] => []
  | b :: rest => if b = a then rest else b :: eraseFirst a rest

/-- The firing loop of `monitor_arduino_status`: iterate over a snapshot
`pending_actions[:]` (first argument) while the live list (second argument)
is mutated by `pending_actions.remove(action)` after each matched execution.
Returns the fired actions in firing order and the final live list. -/
def fireLoop (m : PendingAction → Bool) :
    List PendingAction → List PendingAction → List PendingAction × List PendingAction
  | [], cur => ([], cur)
  | a :: rest, cur =>
    if m a then
      let r := fireLoop m rest (eraseFirst a cur)
      (a :: r.1, r.2)
    else fireLoop m rest cur

/-- Concatenate command lists. -/
def concatAll : List (List String) → List String
  | [] => []
  | a :: r => a ++ concatAll r

/-- `f"LCD:LINE2:{distance:.2f} cm       "`, the continuous distance echo.
The two-decimal rendering uses round-to-nearest on rationals in place of
Python float formatting; no claim depends on this text. -/
def distanceEchoCmd (d : ℚ) : String :=
  let n : Int := round (d * 100)
  "LCD:LINE2:" ++ toString (n / 100) ++ "." ++ pad2 (n % 100).toNat ++ " cm       "

/-- The result of one monitor-loop iteration on one event: the updated
telemetry, the updated pending list, the actions fired (in firing order)
and the serial commands sent. -/
structure StepOut where
  state : ArduinoState
  pending : List PendingAction
  fired : List PendingAction
  sent : List String
deriving DecidableEq

/-- The body of `monitor_arduino_status` for one classified event: update
`arduino_state` first, then run the matching loops of that branch.  For
`DISTANCE:` the continuous `distance_update` echo loop runs before the
`distance_less_than` firing loop, exactly as in the source. -/
def processEvent (ts : Int) (st : ArduinoState) (pending : List PendingAction) :
    Event → StepOut
  | Event.timerRemaining n =>
    ⟨{ st with timer_remaining := n, timer_active := true, last_update := ts },
      pending, [], []⟩
  | Event.timerFinished =>
    let st2 := { st with timer_remaining := 0, timer_active := false, last_update := ts }
    let r := fireLoop matchTimerZero pending pending
    ⟨st2, r.2, r.1, concatAll (r.1.map execute_action)⟩
  | Event.clockReport s =>
    let st2 := { st with clock_time := some s, last_update := ts }
    let r := fireLoop (matchClock s) pending pending
    ⟨st2, r.2, r.1, concatAll (r.1.map execute_action)⟩
  | Event.distanceReport d =>
    let st2 := { st with distance := d, last_update := ts }
    let echoes := (pending.filter matchDistanceUpdate).map (fun _ => distanceEchoCmd d)
    let r := fireLoop (matchDistance d) pending pending
    ⟨st2, r.2, r.1, echoes ++ concatAll (r.1.map execute_action)⟩
  | Event.dropped => ⟨st, pending, [], []⟩

/-- Run the monitor over a list of events in arrival order, collecting per
event the fired actions and the sent commands. -/
def runEvents (ts : Int) :
    List Event → ArduinoState → List PendingAction →
    (ArduinoState × List PendingAction) × List (List PendingAction × List String)
  | [], st, p => ((st, p), [])
  | e :: es, st, p =>
    let o := processEvent ts st p e
    let r := runEvents ts es o.state o.pending
    (r.1, (o.fired, o.sent) :: r.2)

/-! ### Registration tools and clear-all -/

/-- The shared parameter-parsing block of `when_timer_finishes`,
`when_time_equals` and `when_distance_less_than` (the source repeats it
verbatim in each tool).  `Except.error` covers both the explicit
`return "Error: ..."` paths and the `ValueError` a failing `int()` raises
before anything is appended; success messages are elided, error messages
keep the text of the source (the parenthetical usage example of the
`when_timer_finishes` variant is elided). -/
def parseActionParams (then_action action_params : String) : Except String Params :=
  if then_action = "buzzer_beep" then
    if action_params = "" then Except.ok { duration := some 1000 }
    else
      match pyToInt? action_params with
      | some n => Except.ok { duration := some n }
      | none => Except.error "ValueError: invalid literal for int"
  else if then_action = "start_timer" then
    if 2 ≤ (strSplitOn action_params ':').length then
      let parts := strSplitOn action_params ':'
      match pyToInt? (parts.getD 0 ""), pyToInt? (parts.getD 1 "") with
      | some m, some s => Except.ok { minutes := some m, seconds := some s }
      | _, _ => Except.error "ValueError: invalid literal for int"
    else Except.error "Error: Timer format must be MM:SS"
  else if then_action = "led_blink" then
    if action_params = "" then Except.ok { interval := some 1000 }
    else
      match pyToInt? action_params with
      | some n => Except.ok { interval := some n }
      | none => Except.error "ValueError: invalid literal for int"
  else if then_action = "display_message" then
    if 2 ≤ (strSplitOn action_params '|').length then
      let parts := strSplitOn action_params '|'
      Except.ok { line1 := some (parts.getD 0 ""), line2 := some (parts.getD 1 "") }
    else Except.ok { line1 := some action_params, line2 := some "" }
  else Except.ok {}

/-- `when_timer_finishes`: parse the parameters, then append a `timer_zero`
rule; an unknown `then_action` falls through the parse branches with empty
params and is still appended.  `Except.ok` carries the new pending list. -/
def when_timer_finishes (then_action action_params : String)
    (pending : List PendingAction) : Except String (List PendingAction) :=
  match parseActionParams then_action action_params with
  | Except.error e => Except.error e
  | Except.ok prm =>
    Except.ok (pending ++ [⟨Trigger.timer_zero, then_action, prm⟩])

/-- The `^\d\d:\d\d:\d\d$` regular-expression check of `when_time_equals`. -/
def isHHMMSS (s : String) : Bool :=
  s.length = 8 &&
    (List.range 8).all (fun i =>
      let c := s.data.getD i ' '
      if i = 2 || i = 5 then c = ':' else c.isDigit)

/-- `when_time_equals`: validate the `HH:MM:SS` format, parse the parameters,
then append a `time_equals` rule carrying `target_time`. -/
def when_time_equals (target_time then_action action_params : String)
    (pending : List PendingAction) : Except String (List PendingAction) :=
  if isHHMMSS target_time then
    match parseActionParams then_action action_params with
    | Except.error e => Except.error e
    | Except.ok prm =>
      Except.ok (pending ++ [⟨Trigger.time_equals target_time, then_action, prm⟩])
  else Except.error "Error: Time must be in HH:MM:SS format"

/-- `when_distance_less_than`: parse the parameters, then append a
`distance_less_than` rule carrying `target_distance`. -/
def when_distance_less_than (distance_cm : ℚ) (then_action action_params : String)
    (pending : List PendingAction) : Except String (List PendingAction) :=
  match parseActionParams then_action action_params with
  | Except.error e => Except.error e
  | Except.ok prm =>
    Except.ok (pending ++ [⟨Trigger.distance_less_than distance_cm, then_action, prm⟩])

/-- `clear_all_pending_actions`: report `len(pending_actions)` and clear the
list. -/
def clear_all_pending_actions (pending : List PendingAction) :
    Nat × List PendingAction :=
  (pending.length, [])

/-- Concurrent registrations are atomic `list.append` calls under the GIL;
an interleaving of N registrations is the sequence of appends in completion
order. -/
def registerAll (rs : List PendingAction) (pending : List PendingAction) :
    List PendingAction :=
  rs.foldl (fun acc r => acc ++ [r]) pending

/-! ### Caller-facing tools over the module globals

`ServerState` bundles the three module-level mutable globals the tools
touch: `arduino_state`, `pending_actions` and the stream of commands
written to the serial link by `send_command`. -/

structure ServerState where
  arduino_state : ArduinoState
  pending : List PendingAction
  sent : List String
deriving DecidableEq

/-- The initial module state. -/
def serverState0 : ServerState := ⟨arduinoState0, [], []⟩

/-- `send_command`: write one command line to the link. -/
def sendCommand (s : ServerState) (c : String) : ServerState :=
  { s with sent := s.sent ++ [c] }

/-- `lcd_write_line1`: truncate to 16 characters, send `LCD:LINE1:<text>`. -/
def tool_lcd_write_line1 (text : String) (s : ServerState) : ServerState :=
  sendCommand s ("LCD:LINE1:" ++ strTake text 16)

/-- `lcd_write_line2`: truncate to 16 characters, send `LCD:LINE2:<text>`. -/
def tool_lcd_write_line2 (text : String) (s : ServerState) : ServerState :=
  sendCommand s ("LCD:LINE2:" ++ strTake text 16)

/-- `lcd_display_message`: truncate both lines to 16 characters, send line 1,
and send line 2 only if the (truncated) `line2` is non-empty (`if line2:`). -/
def tool_lcd_display_message (line1 line2 : String) (s : ServerState) : ServerState :=
  let t1 := strTake line1 16
  let t2 := strTake line2 16
  let s1 := sendCommand s ("LCD:LINE1:" ++ t1)
  if t2 = "" then s1 else sendCommand s1 ("LCD:LINE2:" ++ t2)

/-- `display_timer`: range-check minutes and seconds, then send
`TM1637:COUNTDOWN:<totalSeconds>`; out-of-range input returns an error
string and sends nothing. -/
def tool_display_timer (minutes seconds : Int) (s : ServerState) : ServerState :=
  if minutes < 0 ∨ 99 < minutes ∨ seconds < 0 ∨ 59 < seconds then s
  else sendCommand s ("TM1637:COUNTDOWN:" ++ toString (minutes * 60 + seconds))

/-- `buzzer_beep`: send `BUZZER:BEEP:<duration>`. -/
def tool_buzzer_beep (duration_ms : Int) (s : ServerState) : ServerState :=
  sendCommand s ("BUZZER:BEEP:" ++ toString duration_ms)

/-- `when_timer_finishes` as a mutation of the module globals: on success the
new pending list is installed; on a failure result nothing changes. -/
def tool_when_timer_finishes (then_action action_params : String)
    (s : ServerState) : ServerState :=
  match when_timer_finishes then_action action_params s.pending with
  | Except.ok p => { s with pending := p }
  | Except.error _ => s

/-- `when_time_equals` over the module globals. -/
def tool_when_time_equals (target_time then_action action_params : String)
    (s : ServerState) : ServerState :=
  match when_time_equals target_time then_action action_params s.pending with
  | Except.ok p => { s with pending := p }
  | Except.error _ => s

/-- `when_distance_less_than` over the module globals. -/
def tool_when_distance_less_than (distance_cm : ℚ) (then_action action_params : String)
    (s : ServerState) : ServerState :=
  match when_distance_less_than distance_cm then_action action_params s.pending with
  | Except.ok p => { s with pending := p }
  | Except.error _ => s

/-- `clear_all_pending_actions` over the module globals. -/
def tool_clear_all_pending_actions (s : ServerState) : ServerState :=
  { s with pending := (clear_all_pending_actions s.pending).2 }

/-- `show_live_ultrasonic_on_lcd`: send `ULTRA:START`, append the continuous
`distance_update` rule, send the `LCD:LINE1:Distance:` header. -/
def tool_show_live_ultrasonic_on_lcd (s : ServerState) : ServerState :=
  let s1 := sendCommand s "ULTRA:START"
  let s2 := { s1 with
    pending := s1.pending ++ [⟨Trigger.distance_update, "update_lcd_distance", {}⟩] }
  sendCommand s2 "LCD:LINE1:Distance:"

/-- One iteration of the ingestion loop on one raw status line, over the
module globals. -/
def monitorLine (ts : Int) (s : ServerState) (line : String) : ServerState :=
  let o := processEvent ts s.arduino_state s.pending (parseLine line)
  { arduino_state := o.state, pending := o.pending, sent := s.sent ++ o.sent }

/-! ### `master_control.py`: cooperative display routines

The asyncio tasks of `master_control.py` suspend only at `await` points, so
the synchronous block between two awaits is one atomic step.  The machine
below has one slot for a `display_clock` task and two slots for
`display_countdown` tasks (two suffice for every scenario the claims need);
a schedule is a list of task identifiers, one per executed block.  Writes to
the serial link are recorded with the task that issued them.  The wall-clock
`now().strftime` of `display_clock` is an oracle `Nat → String` indexed by a
global tick counter. -/

inductive MTask where
  | clock
  | cd1
  | cd2
deriving DecidableEq

/-- Program counter of a `display_clock` task: `init` is the first block
(sets `clock_active = True` and falls into the loop), `loop` is at the top
of the while loop after a sleep, `stopped` is the task having returned. -/
inductive ClockPC where
  | absent
  | init
  | loop
  | stopped
deriving DecidableEq

/-- Program counter of a `display_countdown` task: `init total` is the first
block (sets `timer_active = True` with `total` seconds to go), `loop total`
is at the top of the while loop after a sleep, `beeping left` is inside the
finish burst with `left` beeps still to emit, `stopped` is the task having
returned (after the trailing `timer_active = False`). -/
inductive CdPC where
  | absent
  | init (total : Int)
  | loop (total : Int)
  | beeping (left : Nat)
  | stopped
deriving DecidableEq

/-- State of the `ArduinoController` plus the spawned tasks and the link
trace.  `tick` indexes the wall-clock oracle. -/
structure MCState where
  clock_active : Bool
  timer_active : Bool
  running : Bool
  clockTask : ClockPC
  cd1Task : CdPC
  cd2Task : CdPC
  tick : Nat
  trace : List (MTask × String)
deriving DecidableEq

/-- Record one link write issued by task `tk`. -/
def mcEmit (st : MCState) (tk : MTask) (c : String) : MCState :=
  { st with trace := st.trace ++ [(tk, c)] }

/-- `f"{mins:02d}{secs:02d}"` for `mins, secs = divmod(total, 60)`. -/
def mmssStr (total : Int) : String :=
  pad2 (total / 60).toNat ++ pad2 (total % 60).toNat

/-- The body of one `display_countdown` while-iteration: re-check
`total_seconds >= 0 and self.timer_active and self.running`; if it fails,
leave the loop and run the trailing `self.timer_active = False`; otherwise
write the remaining time, and either start the finish burst (first beep is
in the same block, before the first `await` of the burst) or decrement and
sleep. -/
def cdLoopStep (st : MCState) (tk : MTask) (total : Int) : MCState × CdPC :=
  if 0 ≤ total ∧ st.timer_active = true ∧ st.running = true then
    let st1 := mcEmit st tk ("TM1637:NUM:" ++ mmssStr total)
    if total = 0 then (mcEmit st1 tk "BUZZER:BEEP:300", CdPC.beeping 2)
    else (st1, CdPC.loop (total - 1))
  else ({ st with timer_active := false }, CdPC.stopped)

/-- One atomic step of a `display_countdown` task. -/
def cdStep (st : MCState) (tk : MTask) : CdPC → MCState × CdPC
  | CdPC.absent => (st, CdPC.absent)
  | CdPC.stopped => (st, CdPC.stopped)
  | CdPC.init total => cdLoopStep { st with timer_active := true } tk total
  | CdPC.loop total => cdLoopStep st tk total
  | CdPC.beeping left =>
    if left = 0 then ({ st with timer_active := false }, CdPC.stopped)
    else (mcEmit st tk "BUZZER:BEEP:300", CdPC.beeping (left - 1))

/-- The body of one `display_clock` while-iteration: re-check
`self.clock_active and self.running`; on failure the task returns (without
touching any flag), otherwise it writes the current wall time and sleeps. -/
def clockLoopStep (oracle : Nat → String) (st : MCState) : MCState × ClockPC :=
  if st.clock_active = true ∧ st.running = true then
    ({ mcEmit st MTask.clock ("TM1637:NUM:" ++ oracle st.tick) with tick := st.tick + 1 },
      ClockPC.loop)
  else (st, ClockPC.stopped)

/-- One atomic step of a `display_clock` task. -/
def clockStep (oracle : Nat → String) (st : MCState) : ClockPC → MCState × ClockPC
  | ClockPC.absent => (st, ClockPC.absent)
  | ClockPC.stopped => (st, ClockPC.stopped)
  | ClockPC.init => clockLoopStep oracle { st with clock_active := true }
  | ClockPC.loop => clockLoopStep oracle st

/-- Dispatch one scheduled step to the named task. -/
def mcStep (oracle : Nat → String) (st : MCState) : MTask → MCState
  | MTask.clock =>
    let r := clockStep oracle st st.clockTask
    { r.1 with clockTask := r.2 }
  | MTask.cd1 =>
    let r := cdStep st MTask.cd1 st.cd1Task
    { r.1 with cd1Task := r.2 }
  | MTask.cd2 =>
    let r := cdStep st MTask.cd2 st.cd2Task
    { r.1 with cd2Task := r.2 }

/-- Run a schedule of task steps. -/
def mcRun (oracle : Nat → String) (st : MCState) : List MTask → MCState
  | [] => st
  | t :: rest => mcRun oracle (mcStep oracle st t) rest

/-- `stop_clock` (from `process_command`): `self.clock_active = False`. -/
def stop_clock (st : MCState) : MCState := { st with clock_active := false }

/-- `stop_timer`: `self.timer_active = False`. -/
def stop_timer (st : MCState) : MCState := { st with timer_active := false }

/-- The `display timer:MM:SS` branch of `process_command`: `stop_clock()`
then `create_task(display_countdown(mins, secs))`, spawning into the first
countdown task slot. -/
def cmd_display_timer1 (minutes seconds : Int) (st : MCState) : MCState :=
  { stop_clock st with cd1Task := CdPC.init (minutes * 60 + seconds) }

/-- The same command when a countdown task was already spawned earlier: the
new `create_task` occupies the second countdown slot. -/
def cmd_display_timer2 (minutes seconds : Int) (st : MCState) : MCState :=
  { stop_clock st with cd2Task := CdPC.init (minutes * 60 + seconds) }

/-- The `display clock` branch of `process_command`: `stop_timer()` then
`create_task(display_clock())`. -/
def cmd_display_clock (st : MCState) : MCState :=
  { stop_timer st with clockTask := ClockPC.init }

/-- Display writes (commands for the numeric-display slot) in a trace. -/
def slotWrites (trace : List (MTask × String)) : List (MTask × String) :=
  trace.filter (fun e => strStartsWith e.2 "TM1637:")

/-- Writes attributed to one task. -/
def writesBy (tk : MTask) (trace : List (MTask × String)) : List (MTask × String) :=
  trace.filter (fun e => decide (e.1 = tk))

/-! ### Lemmas about the firing loop -/

theorem eraseFirst_cons_self (a : PendingAction) (l : List PendingAction) :
    eraseFirst a (a :: l) = l := by
  simp [eraseFirst]

theorem eraseFirst_append_not_mem (a : PendingAction) (l1 l2 : List PendingAction)
    (h : ∀ x ∈ l1, x ≠ a) : eraseFirst a (l1 ++ l2) = l1 ++ eraseFirst a l2 := by
  induction l1 with
  | nil => rfl
  | cons b rest ih =>
    simp only [List.cons_append, eraseFirst]
    rw [if_neg (h b (List.mem_cons_self b rest))]
    exact congrArg (b :: .) (ih (fun x hx => h x (List.mem_cons_of_mem b hx)))

theorem fireLoop_eq_aux (m : PendingAction → Bool) :
    ∀ (l pre t : List PendingAction), (∀ x ∈ pre, m x = false) →
      fireLoop m l (pre ++ (l ++ t)) =
        (l.filter m, pre ++ (l.filter (fun a => ! m a) ++ t)) := by
  intro l
  induction l with
  | nil => intro pre t _; rfl
  | cons a rest ih =>
    intro pre t hpre
    by_cases hm : m a = true
    · have hnot : ∀ x ∈ pre, x ≠ a := by
        intro x hx hxa
        rw [hxa] at hx
        have hfa := hpre a hx
        rw [hm] at hfa
        exact Bool.noConfusion hfa
      simp only [fireLoop, hm, if_true, List.cons_append]
      rw [eraseFirst_append_not_mem a pre _ hnot, eraseFirst_cons_self, ih pre t hpre]
      simp [List.filter, hm]
    · have hm' : m a = false := Bool.eq_false_iff.mpr hm
      simp only [fireLoop, hm', Bool.false_eq_true, if_false, List.cons_append]
      have hpre' : ∀ x ∈ pre ++ [a], m x = false := by
        intro x hx
        rcases List.mem_append.mp hx with h1 | h2
        · exact hpre x h1
        · rw [List.mem_singleton.mp h2]; exact hm'
      have step : pre ++ (a :: (rest ++ t)) = (pre ++ [a]) ++ (rest ++ t) := by
        simp
      rw [step, ih (pre ++ [a]) t hpre']
      simp [List.filter, hm']

theorem fireLoop_self (m : PendingAction → Bool) (l : List PendingAction) :
    fireLoop m l l = (l.filter m, l.filter (fun a => ! m a)) := by
  have := fireLoop_eq_aux m l [] [] (by intro x hx; cases hx)
  simpa using this

theorem processEvent_nil_pending (ts : Int) (st : ArduinoState) (e : Event) :
    (processEvent ts st [] e).pending = [] ∧ (processEvent ts st [] e).fired = [] ∧
      (processEvent ts st [] e).sent = [] := by
  cases e <;> simp [processEvent, fireLoop, concatAll]

theorem runEvents_nil_pending (ts : Int) :
    ∀ (es : List Event) (st : ArduinoState),
      (runEvents ts es st []).1.2 = [] ∧
        (runEvents ts es st []).2 =
          es.map (fun _ => (([] : List PendingAction), ([] : List String))) := by
  intro es
  induction es with
  | nil => intro st; exact ⟨rfl, rfl⟩
  | cons e es ih =>
    intro st
    obtain ⟨hp, hf, hs⟩ := processEvent_nil_pending ts st e
    simp only [runEvents, hp, hf, hs, List.map]
    exact ⟨(ih _).1, by rw [(ih _).2]⟩

theorem registerAll_eq (rs : List PendingAction) :
    ∀ p, registerAll rs p = p ++ rs := by
  induction rs with
  | nil => intro p; simp [registerAll]
  | cons r rest ih =>
    intro p
    simp only [registerAll, List.foldl] at *
    rw [ih (p ++ [r])]
    simp

/-! ### Spec-side characterization used by claim C1

This definition follows the words of the spec sentence, not the source: a
`DistanceBelow(t)` rule fires exactly on the first event with `cm < t` and
on no other event.  The claim theorem compares the source-derived trace
against it. -/

def specDistanceOneShotTrace (t : ℚ) (r : PendingAction) :
    List ℚ → List (List PendingAction)
  | [] => []
  | d :: ds =>
    if d < t then [r] :: ds.map (fun _ => [])
    else [] :: specDistanceOneShotTrace t r ds

/-! ### Per-event step lemmas for a single pending rule -/

theorem processEvent_distance_single (ts : Int) (st : ArduinoState) (d t : ℚ)
    (act : String) (prm : Params) :
    (processEvent ts st [⟨Trigger.distance_less_than t, act, prm⟩]
        (Event.distanceReport d)).state =
      { st with distance := d, last_update := ts } ∧
    (processEvent ts st [⟨Trigger.distance_less_than t, act, prm⟩]
        (Event.distanceReport d)).fired =
      (if d < t then [⟨Trigger.distance_less_than t, act, prm⟩] else []) ∧
    (processEvent ts st [⟨Trigger.distance_less_than t, act, prm⟩]
        (Event.distanceReport d)).pending =
      (if d < t then [] else [⟨Trigger.distance_less_than t, act, prm⟩]) := by
  refine ⟨rfl, ?_, ?_⟩ <;>
    by_cases h : d < t <;>
    simp [processEvent, fireLoop_self, matchDistance, List.filter, h]

theorem processEvent_clock_single (ts : Int) (st : ArduinoState)
    (sv target act : String) (prm : Params) :
    (processEvent ts st [⟨Trigger.time_equals target, act, prm⟩]
        (Event.clockReport sv)).state =
      { st with clock_time := some sv, last_update := ts } ∧
    (processEvent ts st [⟨Trigger.time_equals target, act, prm⟩]
        (Event.clockReport sv)).fired =
      (if sv = target then [⟨Trigger.time_equals target, act, prm⟩] else []) ∧
    (processEvent ts st [⟨Trigger.time_equals target, act, prm⟩]
        (Event.clockReport sv)).pending =
      (if sv = target then [] else [⟨Trigger.time_equals target, act, prm⟩]) := by
  refine ⟨rfl, ?_, ?_⟩ <;>
    by_cases h : sv = target <;>
    simp [processEvent, fireLoop_self, matchClock, List.filter, h]

/-- Claim C1: after a `DistanceBelow(t)` rule is registered, over every
sequence of `DistanceReport` events the rule fires exactly once, on the
first event whose distance satisfies `cm < t`, is removed from the pending
set at that firing, and never fires for any event with `cm >= t`.  The
registration conjunct records that `when_distance_less_than` queues exactly
this rule; the trace conjunct compares the fired-rule trace of the monitor
against the spec-side one-shot characterization; the final conjunct records
removal exactly when some event qualified. -/
theorem c1_distance_below_one_shot (t : ℚ) (act : String) (prm : Params)
    (ds : List ℚ) (ts : Int) (st : ArduinoState) :
    when_distance_less_than t "buzzer_beep" "500" [] =
      Except.ok [⟨Trigger.distance_less_than t, "buzzer_beep",
        { duration := some 500 }⟩] ∧
    ((runEvents ts (ds.map Event.distanceReport) st
        [⟨Trigger.distance_less_than t, act, prm⟩]).2.map Prod.fst =
      specDistanceOneShotTrace t ⟨Trigger.distance_less_than t, act, prm⟩ ds) ∧
    ((runEvents ts (ds.map Event.distanceReport) st
        [⟨Trigger.distance_less_than t, act, prm⟩]).1.2 =
      if ds.any (fun d => decide (d < t)) then []
      else [⟨Trigger.distance_less_than t, act, prm⟩]) := by
  refine ⟨rfl, ?_⟩
  induction ds generalizing st with
  | nil => exact ⟨rfl, rfl⟩
  | cons d ds ih =>
    obtain ⟨hst, hf, hp⟩ :=
      processEvent_distance_single ts st d t act prm
    by_cases h : d < t
    · rw [if_pos h] at hf hp
      constructor
      · simp only [List.map_cons, runEvents, List.map, hf, hp]
        rw [(runEvents_nil_pending ts (ds.map Event.distanceReport) _).2]
        simp [specDistanceOneShotTrace, if_pos h, List.map_map, Function.comp_def]
      · simp only [List.map_cons, runEvents, hp, List.any_cons]
        rw [(runEvents_nil_pending ts (ds.map Event.distanceReport) _).1]
        simp [h]
    · rw [if_neg h] at hf hp
      constructor
      · simp only [List.map_cons, runEvents, List.map, hf, hp, hst,
          specDistanceOneShotTrace, if_neg h]
        rw [(ih _).1]
      · simp only [List.map_cons, runEvents, hp, hst, List.any_cons]
        rw [(ih _).2]
        simp [h]

/-- Claim C2: a registered `ClockEquals(target)` rule fires if and only if
some `ClockReport` event carries a value string exactly equal
(case-sensitively) to `target`; near-miss values never cause a firing and a
target never emitted verbatim never fires. -/
theorem c2_clock_equals_iff_exact (target act : String) (prm : Params)
    (ss : List String) (ts : Int) (st : ArduinoState) :
    (∃ tr ∈ (runEvents ts (ss.map Event.clockReport) st
        [⟨Trigger.time_equals target, act, prm⟩]).2,
      (⟨Trigger.time_equals target, act, prm⟩ : PendingAction) ∈ tr.1) ↔
      target ∈ ss := by
  induction ss generalizing st with
  | nil => simp [runEvents]
  | cons s ss ih =>
    obtain ⟨hst, hf, hp⟩ := processEvent_clock_single ts st s target act prm
    by_cases h : s = target
    · rw [if_pos h] at hf hp
      refine iff_of_true ?_ ?_
      · refine ⟨((processEvent ts st [⟨Trigger.time_equals target, act, prm⟩]
            (Event.clockReport s)).fired,
          (processEvent ts st [⟨Trigger.time_equals target, act, prm⟩]
            (Event.clockReport s)).sent), ?_, ?_⟩
        · simp [runEvents]
        · rw [hf]; exact List.mem_singleton.mpr rfl
      · rw [← h]; exact List.mem_cons_self s ss
    · rw [if_neg h] at hf hp
      have htar : target ≠ s := fun hh => h hh.symm
      simp only [List.map_cons, runEvents, List.mem_cons, htar, false_or,
        exists_eq_or_imp, hf, List.not_mem_nil, false_or, hp, hst]
      exact ih _

/-- Claim C3: after registering `when_timer_finishes("buzzer_beep","500")`,
delivering one `COUNTDOWN:FINISHED` line fires the rule, sends exactly one
`BUZZER:BEEP:500` command, and leaves zero `TimerZero` rules pending. -/
theorem c3_timer_finished_single_beep :
    when_timer_finishes "buzzer_beep" "500" [] =
      Except.ok [⟨Trigger.timer_zero, "buzzer_beep", { duration := some 500 }⟩] ∧
    parseLine "COUNTDOWN:FINISHED" = Event.timerFinished ∧
    (processEvent 0 arduinoState0
        [⟨Trigger.timer_zero, "buzzer_beep", { duration := some 500 }⟩]
        Event.timerFinished).sent = ["BUZZER:BEEP:500"] ∧
    (processEvent 0 arduinoState0
        [⟨Trigger.timer_zero, "buzzer_beep", { duration := some 500 }⟩]
        Event.timerFinished).pending = [] :=
  ⟨rfl, rfl, rfl, rfl⟩

/-- Claim C5: N rules registered (concurrent registrations are atomic list
appends completing, in some order, before the event arrives) followed by one
event matching all N: all N fire, in registration order, with no lost and no
duplicated firings, and the processing step owns the pending collection for
its whole duration (one atomic step of the model). -/
theorem c5_concurrent_registration_order (rs : List PendingAction) (ts : Int)
    (st : ArduinoState) (h : ∀ a ∈ rs, a.trigger = Trigger.timer_zero) :
    registerAll rs [] = rs ∧
    (processEvent ts st (registerAll rs []) Event.timerFinished).fired = rs ∧
    (processEvent ts st (registerAll rs []) Event.timerFinished).pending = [] := by
  have hreg : registerAll rs [] = rs := by simpa using registerAll_eq rs []
  refine ⟨hreg, ?_, ?_⟩ <;> rw [hreg]
  · show (fireLoop matchTimerZero rs rs).1 = rs
    rw [fireLoop_self]
    exact List.filter_eq_self.mpr fun a ha => by simp [matchTimerZero, h a ha]
  · show (fireLoop matchTimerZero rs rs).2 = []
    rw [fireLoop_self]
    exact List.filter_eq_nil_iff.mpr fun a ha => by simp [matchTimerZero, h a ha]

/-- A concrete pair of `timer_zero` rules used by the C5 witness. -/
def c5RuleA : PendingAction :=
  ⟨Trigger.timer_zero, "buzzer_beep", { duration := some 500 }⟩

/-- Second concrete rule for the C5 witness. -/
def c5RuleB : PendingAction :=
  ⟨Trigger.timer_zero, "led_blink", { interval := some 200 }⟩

/-- Witness for C5 at two concretely registered rules. -/
theorem c5_concurrent_registration_order_witness :
    (∀ a ∈ [c5RuleA, c5RuleB], a.trigger = Trigger.timer_zero) ∧
    (registerAll [c5RuleA, c5RuleB] [] = [c5RuleA, c5RuleB] ∧
      (processEvent 0 arduinoState0 (registerAll [c5RuleA, c5RuleB] [])
          Event.timerFinished).fired = [c5RuleA, c5RuleB] ∧
      (processEvent 0 arduinoState0 (registerAll [c5RuleA, c5RuleB] [])
          Event.timerFinished).pending = []) :=
  ⟨by decide, c5_concurrent_registration_order [c5RuleA, c5RuleB] 0 arduinoState0
    (by decide)⟩

/-- Claim C7: `clear_all_pending_actions` reports the number of pending rules
and empties the collection; every subsequent event then fires nothing and
sends nothing. -/
theorem c7_clear_all_then_silent (p : List PendingAction) (es : List Event)
    (ts : Int) (st : ArduinoState) :
    clear_all_pending_actions p = (p.length, []) ∧
    (runEvents ts es st (clear_all_pending_actions p).2).1.2 = [] ∧
    (runEvents ts es st (clear_all_pending_actions p).2).2 =
      es.map (fun _ => (([] : List PendingAction), ([] : List String))) :=
  ⟨rfl, (runEvents_nil_pending ts es st).1, (runEvents_nil_pending ts es st).2⟩

/-- Counterexample to claim C6: registering an unknown action kind is NOT
rejected — `when_timer_finishes("dance", "")` succeeds and queues a rule
with empty parameters, and that rule silently sends nothing when fired. -/
theorem c6_counterexample_unknown_kind_queued :
    when_timer_finishes "dance" "" [] =
      Except.ok [⟨Trigger.timer_zero, "dance", {}⟩] ∧
    execute_action ⟨Trigger.timer_zero, "dance", {}⟩ = [] :=
  ⟨rfl, rfl⟩

/-- Claim C6 as amended: a registration whose known structured kind has
malformed parameters (`start_timer` without a colon) is rejected with a
descriptive failure result and nothing is queued; but a registration with an
unknown action kind is accepted, queued with empty parameters, and silently
performs no command when fired. -/
theorem c6_amended_registration_validation (k ap ap2 : String)
    (p : List PendingAction)
    (hk : k ∉ ["buzzer_beep", "start_timer", "led_blink", "display_message",
      "custom_command"])
    (hap : (strSplitOn ap ':').length < 2) :
    when_timer_finishes "start_timer" ap p =
      Except.error "Error: Timer format must be MM:SS" ∧
    when_timer_finishes k ap2 p =
      Except.ok (p ++ [⟨Trigger.timer_zero, k, {}⟩]) ∧
    execute_action ⟨Trigger.timer_zero, k, {}⟩ = [] := by
  simp only [List.mem_cons, List.not_mem_nil, or_false, not_or] at hk
  obtain ⟨h1, h2, h3, h4, h5⟩ := hk
  refine ⟨?_, ?_, ?_⟩
  · have : ¬ 2 ≤ (strSplitOn ap ':').length := by omega
    simp [when_timer_finishes, parseActionParams, this]
  · simp [when_timer_finishes, parseActionParams, h1, h2, h3, h4]
  · simp [execute_action, h1, h2, h3, h4, h5]

/-- Witness for the amended C6 at the concrete inputs
`k = "dance"`, `ap = "0200"`, `ap2 = ""`. -/
theorem c6_amended_registration_validation_witness :
    (("dance" : String) ∉ ["buzzer_beep", "start_timer", "led_blink",
        "display_message", "custom_command"] ∧
      (strSplitOn "0200" ':').length < 2) ∧
    (when_timer_finishes "start_timer" "0200" [] =
        Except.error "Error: Timer format must be MM:SS" ∧
      when_timer_finishes "dance" "" [] =
        Except.ok ([] ++ [⟨Trigger.timer_zero, "dance", {}⟩]) ∧
      execute_action ⟨Trigger.timer_zero, "dance", {}⟩ = []) :=
  ⟨⟨by decide, by decide⟩,
    c6_amended_registration_validation "dance" "0200" "" [] (by decide) (by decide)⟩

/-- Claim C9: telemetry is mutated only by the ingestion loop.  Every
command-sending or registration tool preserves every `arduino_state` field,
while the ingestion step is the component that updates telemetry (final
conjunct, for a `TIMER:REMAINING` event). -/
theorem c9_telemetry_only_ingestion (s : ServerState) (txt l1 l2 : String)
    (m sec dur : Int) (k ap tgt : String) (q : ℚ) (ts n : Int)
    (a : ArduinoState) (p : List PendingAction) :
    (tool_lcd_write_line1 txt s).arduino_state = s.arduino_state ∧
    (tool_lcd_write_line2 txt s).arduino_state = s.arduino_state ∧
    (tool_lcd_display_message l1 l2 s).arduino_state = s.arduino_state ∧
    (tool_display_timer m sec s).arduino_state = s.arduino_state ∧
    (tool_buzzer_beep dur s).arduino_state = s.arduino_state ∧
    (tool_when_timer_finishes k ap s).arduino_state = s.arduino_state ∧
    (tool_when_time_equals tgt k ap s).arduino_state = s.arduino_state ∧
    (tool_when_distance_less_than q k ap s).arduino_state = s.arduino_state ∧
    (tool_clear_all_pending_actions s).arduino_state = s.arduino_state ∧
    (tool_show_live_ultrasonic_on_lcd s).arduino_state = s.arduino_state ∧
    (processEvent ts a p (Event.timerRemaining n)).state =
      { a with timer_remaining := n, timer_active := true, last_update := ts } := by
  refine ⟨rfl, rfl, ?_, ?_, rfl, ?_, ?_, ?_, rfl, rfl, rfl⟩
  · unfold tool_lcd_display_message sendCommand
    dsimp only
    split <;> rfl
  · unfold tool_display_timer sendCommand
    split <;> rfl
  · unfold tool_when_timer_finishes
    rcases when_timer_finishes k ap s.pending <;> rfl
  · unfold tool_when_time_equals
    rcases when_time_equals tgt k ap s.pending <;> rfl
  · unfold tool_when_distance_less_than
    rcases when_distance_less_than q k ap s.pending <;> rfl

/-- Counterexample to claim C10: `lcd_display_message` with an empty second
line does not send any `LCD:LINE2` command at all, so the claimed "for every
input string a command with exactly the first 16 characters is sent" fails
at `line2 = ""`: only the line-1 command goes out. -/
theorem c10_counterexample_empty_line2 :
    (tool_lcd_display_message "a" "" serverState0).sent = ["LCD:LINE1:a"] ∧
    ("LCD:LINE2:" ++ strTake "" 16) ∉
      (tool_lcd_display_message "a" "" serverState0).sent := by
  constructor
  · rfl
  · decide

/-- `s[:16]` is the identity on strings of at most 16 characters. -/
theorem strTake_of_length_le (s : String) (h : s.length ≤ 16) :
    strTake s 16 = s := by
  unfold strTake
  rw [List.take_of_length_le h]

/-- Claim C10 as amended: `lcd_write_line1`, `lcd_write_line2` and
`lcd_display_message` each send commands whose text payload is exactly the
first 16 characters of the input, for EVERY input string `txt`, `l1`, `l2`
(longer inputs are silently truncated and never rejected); a `short` input
of at most 16 characters goes out unchanged, since its 16-character
truncation is itself — except that `lcd_display_message` omits the line-2
command entirely when `line2` is empty. -/
theorem c10_amended_lcd_truncation (txt l1 l2 short : String) (s : ServerState)
    (h : short.length ≤ 16) :
    (tool_lcd_write_line1 txt s).sent =
      s.sent ++ ["LCD:LINE1:" ++ strTake txt 16] ∧
    (tool_lcd_write_line2 txt s).sent =
      s.sent ++ ["LCD:LINE2:" ++ strTake txt 16] ∧
    (tool_lcd_display_message l1 l2 s).sent =
      s.sent ++ ["LCD:LINE1:" ++ strTake l1 16] ++
        (if strTake l2 16 = "" then []
          else ["LCD:LINE2:" ++ strTake l2 16]) ∧
    strTake short 16 = short := by
  refine ⟨rfl, rfl, ?_, strTake_of_length_le short h⟩
  unfold tool_lcd_display_message sendCommand
  dsimp only
  split <;> simp

/-- Witness for the amended C10, exercising a 22-character input on both
single-line tools (payload truncated to the first 16 characters) and a
short input for the unchanged case. -/
theorem c10_amended_lcd_truncation_witness :
    ("hello" : String).length ≤ 16 ∧
    ((tool_lcd_write_line1 "abcdefghijklmnopqrstuv" serverState0).sent =
        serverState0.sent ++
          ["LCD:LINE1:" ++ strTake "abcdefghijklmnopqrstuv" 16] ∧
      (tool_lcd_write_line2 "abcdefghijklmnopqrstuv" serverState0).sent =
        serverState0.sent ++
          ["LCD:LINE2:" ++ strTake "abcdefghijklmnopqrstuv" 16] ∧
      (tool_lcd_display_message "a" "bb" serverState0).sent =
        serverState0.sent ++ ["LCD:LINE1:" ++ strTake "a" 16] ++
          (if strTake "bb" 16 = "" then []
            else ["LCD:LINE2:" ++ strTake "bb" 16]) ∧
      strTake "hello" 16 = "hello") :=
  ⟨by decide, c10_amended_lcd_truncation "abcdefghijklmnopqrstuv" "a" "bb"
    "hello" serverState0 (by decide)⟩

/-! ### Lemmas about the master-control interleaving machine -/

theorem writesBy_clock_emit (st : MCState) (tk : MTask) (c : String)
    (htk : tk ≠ MTask.clock) :
    writesBy MTask.clock (mcEmit st tk c).trace =
      writesBy MTask.clock st.trace := by
  simp [mcEmit, writesBy, List.filter_append, htk]

theorem cdLoopStep_clock_fields (st : MCState) (tk : MTask) (total : Int)
    (htk : tk ≠ MTask.clock) :
    (cdLoopStep st tk total).1.clock_active = st.clock_active ∧
    (cdLoopStep st tk total).1.clockTask = st.clockTask ∧
    writesBy MTask.clock (cdLoopStep st tk total).1.trace =
      writesBy MTask.clock st.trace := by
  unfold cdLoopStep
  split_ifs <;> simp [mcEmit, writesBy, List.filter_append, htk]

theorem cdStep_clock_fields (st : MCState) (tk : MTask) (pc : CdPC)
    (htk : tk ≠ MTask.clock) :
    (cdStep st tk pc).1.clock_active = st.clock_active ∧
    (cdStep st tk pc).1.clockTask = st.clockTask ∧
    writesBy MTask.clock (cdStep st tk pc).1.trace =
      writesBy MTask.clock st.trace := by
  cases pc with
  | absent => exact ⟨rfl, rfl, rfl⟩
  | stopped => exact ⟨rfl, rfl, rfl⟩
  | init total =>
    exact cdLoopStep_clock_fields { st with timer_active := true } tk total htk
  | loop total => exact cdLoopStep_clock_fields st tk total htk
  | beeping left =>
    simp only [cdStep]
    split_ifs <;> simp [mcEmit, writesBy, List.filter_append, htk]

/-- Once `clock_active` is false and the clock task sits at its loop head (or
has returned), every schedule leaves `clock_active` false, adds no
clock-attributed writes, and stops the clock task at its first scheduled
step. -/
theorem mcRun_clock_frozen (oracle : Nat → String) :
    ∀ (sched : List MTask) (st : MCState),
      st.clock_active = false →
      st.clockTask = ClockPC.loop ∨ st.clockTask = ClockPC.stopped →
      (mcRun oracle st sched).clock_active = false ∧
      ((mcRun oracle st sched).clockTask = ClockPC.loop ∨
        (mcRun oracle st sched).clockTask = ClockPC.stopped) ∧
      writesBy MTask.clock (mcRun oracle st sched).trace =
        writesBy MTask.clock st.trace ∧
      (st.clockTask = ClockPC.stopped →
        (mcRun oracle st sched).clockTask = ClockPC.stopped) ∧
      (MTask.clock ∈ sched →
        (mcRun oracle st sched).clockTask = ClockPC.stopped) := by
  intro sched
  induction sched with
  | nil =>
    intro st hca hpc
    exact ⟨hca, hpc, rfl, fun h => h, fun h => absurd h (List.not_mem_nil _)⟩
  | cons t rest ih =>
    intro st hca hpc
    cases t with
    | clock =>
      have hstep : mcStep oracle st MTask.clock =
          { st with clockTask := ClockPC.stopped } := by
        rcases hpc with hpc | hpc <;>
          simp [mcStep, clockStep, clockLoopStep, hpc, hca]
      simp only [mcRun, hstep]
      obtain ⟨h1, h2, h3, h4, _⟩ :=
        ih { st with clockTask := ClockPC.stopped } hca (Or.inr rfl)
      exact ⟨h1, h2, h3, fun _ => h4 rfl, fun _ => h4 rfl⟩
    | cd1 =>
      obtain ⟨f1, f2, f3⟩ :=
        cdStep_clock_fields st MTask.cd1 st.cd1Task (by simp)
      have hca' : (mcStep oracle st MTask.cd1).clock_active = false := by
        simpa [mcStep, f1] using hca
      have hpc' : (mcStep oracle st MTask.cd1).clockTask = ClockPC.loop ∨
          (mcStep oracle st MTask.cd1).clockTask = ClockPC.stopped := by
        simpa [mcStep, f2] using hpc
      have htr' : writesBy MTask.clock (mcStep oracle st MTask.cd1).trace =
          writesBy MTask.clock st.trace := by
        simpa [mcStep] using f3
      simp only [mcRun]
      obtain ⟨h1, h2, h3, h4, h5⟩ := ih (mcStep oracle st MTask.cd1) hca' hpc'
      refine ⟨h1, h2, h3.trans htr', fun hstop => ?_, fun hmem => ?_⟩
      · apply h4
        simpa [mcStep, f2] using hstop
      · apply h5
        simpa using hmem
    | cd2 =>
      obtain ⟨f1, f2, f3⟩ :=
        cdStep_clock_fields st MTask.cd2 st.cd2Task (by simp)
      have hca' : (mcStep oracle st MTask.cd2).clock_active = false := by
        simpa [mcStep, f1] using hca
      have hpc' : (mcStep oracle st MTask.cd2).clockTask = ClockPC.loop ∨
          (mcStep oracle st MTask.cd2).clockTask = ClockPC.stopped := by
        simpa [mcStep, f2] using hpc
      have htr' : writesBy MTask.clock (mcStep oracle st MTask.cd2).trace =
          writesBy MTask.clock st.trace := by
        simpa [mcStep] using f3
      simp only [mcRun]
      obtain ⟨h1, h2, h3, h4, h5⟩ := ih (mcStep oracle st MTask.cd2) hca' hpc'
      refine ⟨h1, h2, h3.trans htr', fun hstop => ?_, fun hmem => ?_⟩
      · apply h4
        simpa [mcStep, f2] using hstop
      · apply h5
        simpa using hmem

/-- Scenario state for the C4 counterexample: a countdown routine is Running
on the numeric display (mid-loop with 5 seconds to go), no clock task. -/
def c4SameKindInitial : MCState :=
  { clock_active := false, timer_active := true, running := true,
    clockTask := ClockPC.absent, cd1Task := CdPC.loop 5,
    cd2Task := CdPC.absent, tick := 0, trace := [] }

/-- Counterexample to claim C4: starting a new countdown (`display
timer:0:3`) while a countdown is already Running only calls `stop_clock`,
so after the new task's first write and one step of the old task BOTH
routines are still Running (neither reached `Stopped`) and the old routine
wrote to the slot after the new routine's first write. -/
theorem c4_counterexample_two_running_countdowns :
    (mcRun (fun _ => "") (cmd_display_timer2 0 3 c4SameKindInitial)
        [MTask.cd2, MTask.cd1]).cd1Task = CdPC.loop 4 ∧
    (mcRun (fun _ => "") (cmd_display_timer2 0 3 c4SameKindInitial)
        [MTask.cd2, MTask.cd1]).cd2Task = CdPC.loop 2 ∧
    (mcRun (fun _ => "") (cmd_display_timer2 0 3 c4SameKindInitial)
        [MTask.cd2, MTask.cd1]).cd1Task ≠ CdPC.stopped ∧
    (mcRun (fun _ => "") (cmd_display_timer2 0 3 c4SameKindInitial)
        [MTask.cd2, MTask.cd1]).cd2Task ≠ CdPC.stopped ∧
    (mcRun (fun _ => "") (cmd_display_timer2 0 3 c4SameKindInitial)
        [MTask.cd2, MTask.cd1]).trace =
      [(MTask.cd2, "TM1637:NUM:0003"), (MTask.cd1, "TM1637:NUM:0005")] := by
  refine ⟨rfl, rfl, ?_, ?_, rfl⟩ <;> decide

/-- Scenario state for the amended C4: a live-clock routine is Running on
the numeric display (at its loop head), no countdown yet. -/
def c4CrossInitial : MCState :=
  { clock_active := true, timer_active := false, running := true,
    clockTask := ClockPC.loop, cd1Task := CdPC.absent,
    cd2Task := CdPC.absent, tick := 0, trace := [] }

/-- Claim C4 as amended: starting a countdown while a clock routine (a
routine of the other kind) is Running signals the clock to stop
synchronously in the command handler; in every schedule that runs the clock
task at least once, the clock performs no further writes to the slot and
reaches `Stopped` — but the handler does not wait, so the stop may be
observed only after the countdown's first write, and (per the
counterexample) a same-kind restart leaves two Running routines. -/
theorem c4_amended_crosskind_supersede (oracle : Nat → String)
    (sched : List MTask) (hm : MTask.clock ∈ sched) :
    (cmd_display_timer1 0 3 c4CrossInitial).clock_active = false ∧
    writesBy MTask.clock
      (mcRun oracle (cmd_display_timer1 0 3 c4CrossInitial) sched).trace = [] ∧
    (mcRun oracle (cmd_display_timer1 0 3 c4CrossInitial) sched).clockTask =
      ClockPC.stopped := by
  obtain ⟨_, _, h3, _, h5⟩ :=
    mcRun_clock_frozen oracle sched (cmd_display_timer1 0 3 c4CrossInitial)
      rfl (Or.inl rfl)
  exact ⟨rfl, h3, h5 hm⟩

/-- Witness for the amended C4 at a concrete oracle and schedule. -/
theorem c4_amended_crosskind_supersede_witness :
    MTask.clock ∈ [MTask.clock, MTask.cd1] ∧
    ((cmd_display_timer1 0 3 c4CrossInitial).clock_active = false ∧
      writesBy MTask.clock
        (mcRun (fun _ => "1234") (cmd_display_timer1 0 3 c4CrossInitial)
          [MTask.clock, MTask.cd1]).trace = [] ∧
      (mcRun (fun _ => "1234") (cmd_display_timer1 0 3 c4CrossInitial)
          [MTask.clock, MTask.cd1]).clockTask = ClockPC.stopped) :=
  ⟨by decide, c4_amended_crosskind_supersede (fun _ => "1234")
    [MTask.clock, MTask.cd1] (by decide)⟩

/-- Scenario state for C8: a fresh countdown task spawned with
`display_countdown(0, 3)`, nothing else live. -/
def c8Initial : MCState :=
  { clock_active := false, timer_active := false, running := true,
    clockTask := ClockPC.absent, cd1Task := CdPC.init 3,
    cd2Task := CdPC.absent, tick := 0, trace := [] }

/-- Counterexample to claim C8: the countdown started with `(0, 3)` writes
FOUR remaining-time values (`0003`, `0002`, `0001`, `0000`), not three —
the zero value is written before the alert burst. -/
theorem c8_counterexample_four_writes :
    (slotWrites (mcRun (fun _ => "") c8Initial
        [MTask.cd1, MTask.cd1, MTask.cd1, MTask.cd1, MTask.cd1, MTask.cd1,
          MTask.cd1, MTask.cd1]).trace).length = 4 ∧
    (slotWrites (mcRun (fun _ => "") c8Initial
        [MTask.cd1, MTask.cd1, MTask.cd1, MTask.cd1, MTask.cd1, MTask.cd1,
          MTask.cd1, MTask.cd1]).trace).length ≠ 3 := by
  refine ⟨rfl, ?_⟩; decide

/-- Claim C8 as amended: a countdown routine started with `(0, 3)` writes
exactly four decreasing remaining-time values (3, 2, 1 and 0 seconds), then
issues the 3-beep alert burst with inter-beep delay, and terminates on its
own (task `Stopped`, `timer_active` reset) without any external stop
command in the schedule. -/
theorem c8_amended_countdown_trace :
    (mcRun (fun _ => "") c8Initial
        [MTask.cd1, MTask.cd1, MTask.cd1, MTask.cd1, MTask.cd1, MTask.cd1,
          MTask.cd1, MTask.cd1]).trace =
      [(MTask.cd1, "TM1637:NUM:0003"), (MTask.cd1, "TM1637:NUM:0002"),
        (MTask.cd1, "TM1637:NUM:0001"), (MTask.cd1, "TM1637:NUM:0000"),
        (MTask.cd1, "BUZZER:BEEP:300"), (MTask.cd1, "BUZZER:BEEP:300"),
        (MTask.cd1, "BUZZER:BEEP:300")] ∧
    (mcRun (fun _ => "") c8Initial
        [MTask.cd1, MTask.cd1, MTask.cd1, MTask.cd1, MTask.cd1, MTask.cd1,
          MTask.cd1, MTask.cd1]).cd1Task = CdPC.stopped ∧
    (mcRun (fun _ => "") c8Initial
        [MTask.cd1, MTask.cd1, MTask.cd1, MTask.cd1, MTask.cd1, MTask.cd1,
          MTask.cd1, MTask.cd1]).timer_active = false :=
  ⟨rfl, rfl, rfl⟩
